import Mathlib

/-!  Shallow embedding of the turbulent-jet post-processing pipeline
(the calculator service: `computeAll` and its helpers, together with the
data model of `types.ts`).

Modelling conventions:
* JavaScript numbers are modelled as real numbers (`ℝ`).
* `parseFloat` results are modelled as `Option ℝ`: `none` stands for text
  that does not parse to a finite float (NaN).  The pipeline only ever
  branches on finiteness of parsed inputs, never on their textual form.
* The NaN sentinel the code uses for `rHalf` and `rmse` is modelled as
  `Option ℝ` (`none` = NaN), following the spec's own design note (§9).
* Real division is Lean's total division (`x / 0 = 0`); the source relies
  on IEEE division only in branches whose guards rule a zero denominator
  out, except for degenerate exact-tie inputs where IEEE produces ±∞/NaN
  and this model produces the value given by `x / 0 = 0`.
* Trace strings and per-step logs are not modelled; the warnings list is
  modelled as a list of tokens, one per `pushWarn` site, since only the
  presence of a warning is observable in the properties considered here.
-/

namespace TJet

noncomputable section

/-- One raw input row: the parse results of the radius text (mm) and of the
Δp text.  `none` models text that does not parse to a finite float. -/
structure RowData where
  r : Option ℝ
  dp : Option ℝ

/-- One input station: parse result of the x/D text plus its raw rows.
(The `variac`/`port1` metadata fields are carried through by the source for
display only and are not modelled.) -/
structure StationData where
  id : ℕ
  xd : Option ℝ
  rows : List RowData

/-- Global settings: parse results of the density and diameter texts and
the pressure-unit mode (`kpa = true` models `pUnits === 'kpa'`). -/
structure GlobalSettings where
  rho : Option ℝ
  Dcm : Option ℝ
  kpa : Bool

/-- The non-fatal warnings the pipeline can push, one token per
`pushWarn` call site of the source. -/
inductive Warning where
  | duplicateR
  | nonMonotonic
  | uCExtrapolation
  | noCrossing
  | tailSkipped
  deriving DecidableEq

/-- `ComputedRow`: radius in meters, Δp in pascals, derived velocity. -/
@[ext]
structure ComputedRow where
  r : ℝ
  dpPa : ℝ
  u : ℝ

/-- The finished per-station record (numeric fields of `ComputedStation`;
the trace is reduced to its warnings list). -/
@[ext]
structure ComputedStation where
  id : ℕ
  xd : ℝ
  rho : ℝ
  D : ℝ
  rows : List ComputedRow
  Uc : ℝ
  rHalf : Option ℝ
  mdot : ℝ
  I : ℝ
  collapse : List (ℝ × ℝ)
  rmse : Option ℝ
  warnings : List Warning

structure ComputedResults where
  globals : GlobalSettings
  results : List ComputedStation

/-! ## Utility functions of the source -/

def mm2m (v : ℝ) : ℝ := v / 1000

def cm2m (v : ℝ) : ℝ := v / 100

def kPa2Pa (v : ℝ) : ℝ := v * 1000

/-- `parseFloat(s) || d`: NaN (and a parse result of 0, which is falsy in
JavaScript) falls back to the default `d`; any other parsed value is used
as-is. -/
def parseOrDefault (s : Option ℝ) (d : ℝ) : ℝ :=
  match s with
  | none => d
  | some x => if x = 0 then d else x

/-- The density actually used: `parseFloat(rho) || 1.204`. -/
def rhoUsed (g : GlobalSettings) : ℝ := parseOrDefault g.rho 1.204

/-- The diameter actually used (m): `cm2m(parseFloat(Dcm) || 2.54)`. -/
def dUsed (g : GlobalSettings) : ℝ := cm2m (parseOrDefault g.Dcm 2.54)

/-! ## Row parsing and the row-level velocity deriver -/

/-- `st.rows.map(parse).filter(isFinite r && isFinite dp)`: the list of
(radius mm, Δp) pairs that both parse to finite floats. -/
def parseRows (rows : List RowData) : List (ℝ × ℝ) :=
  rows.filterMap fun row =>
    match row.r, row.dp with
    | some rmm, some dp => some (rmm, dp)
    | _, _ => none

/-- One parsed row to one computed row:
`dpPa = unitIsKPa ? kPa2Pa(dp) : dp`, `u = sqrt(max(0, 2*dpPa/rho))`,
`r = mm2m(rmm)`. -/
def deriveRow (kpa : Bool) (rho : ℝ) (p : ℝ × ℝ) : ComputedRow :=
  let dpPa := if kpa then kPa2Pa p.2 else p.2
  { r := mm2m p.1
    dpPa := dpPa
    u := Real.sqrt (max 0 (2 * dpPa / rho)) }

/-! ## Sorting and validation warnings -/

/-- The comparator `(a, b) => a.r - b.r`. -/
def rleR (a b : ComputedRow) : Prop := a.r ≤ b.r

instance : DecidableRel rleR := fun a b => inferInstanceAs (Decidable (a.r ≤ b.r))

instance : IsTotal ComputedRow rleR := ⟨fun a b => le_total a.r b.r⟩

instance : IsTrans ComputedRow rleR := ⟨fun _ _ _ h1 h2 => le_trans h1 h2⟩

/-- `computedRows.sort((a, b) => a.r - b.r)` — a stable sort by radius. -/
def sortRows (l : List ComputedRow) : List ComputedRow := List.insertionSort rleR l

/-- The post-sort validation loop: for every consecutive pair, warn on a
duplicate radius and on a velocity increasing outward. -/
def scanWarnings : List ComputedRow → List Warning
  | a :: b :: l =>
      ((if b.r = a.r then [Warning.duplicateR] else []) ++
        (if a.u < b.u then [Warning.nonMonotonic] else [])) ++
        scanWarnings (b :: l)
  | _ => []

/-! ## Centerline velocity estimator -/

/-- `estimateUc` on the sorted rows.  The first two arms are unreachable in
`computeAll` (stations with fewer than 2 parsed rows are dropped); in the
source the one-row arm yields `u[0] || NaN` behind a warning. -/
def estimateUc : List ComputedRow → ℝ
  | [] => 0
  | [p] => p.u
  | p1 :: p2 :: _ =>
      if p1.r = 0 then p1.u
      else if |p1.r * p1.r - p2.r * p2.r| < 1e-12 then
        p1.u + (p2.u - p1.u) * (0 - p1.r) / (p2.r - p1.r)
      else
        p1.u - (p1.u - p2.u) / (p1.r * p1.r - p2.r * p2.r) * (p1.r * p1.r)

/-! ## Half-velocity radius solver -/

/-- First consecutive pair of the list satisfying `p` (the `for` loops of
`interpolateRhalf`, which return at the first hit). -/
def findPair (p : α → α → Prop) [DecidableRel p] : List α → Option (α × α)
  | a :: b :: l => if p a b then some (a, b) else findPair p (b :: l)
  | _ => none

/-- The transformed profile: rows with `u > 0`, as `(r², ln u)` pairs.
(The source maps all rows to `lnu = u > 0 ? log u : -Infinity` and then
filters `isFinite(lnu)`, which keeps exactly the `u > 0` rows.) -/
def transformedOf (r u : List ℝ) : List (ℝ × ℝ) :=
  ((r.zip u).filter fun p => decide (0 < p.2)).map fun p => (p.1 * p.1, Real.log p.2)

/-- `interpolateRhalf`: log-space scan over the transformed profile, then a
linear fallback scan over `(r, u)`, `none` when neither brackets the
target. -/
def interpolateRhalf (r u : List ℝ) (Uc : ℝ) : Option ℝ :=
  if Uc ≤ 0 then none
  else
    let targetU := Uc / 2
    let targetLnu := Real.log targetU
    match findPair (fun p1 p2 : ℝ × ℝ => targetLnu ≤ p1.2 ∧ p2.2 ≤ targetLnu)
        (transformedOf r u) with
    | some (p1, p2) =>
        let t := (targetLnu - p1.2) / (p2.2 - p1.2)
        some (Real.sqrt (p1.1 + t * (p2.1 - p1.1)))
    | none =>
        match findPair (fun q1 q2 : ℝ × ℝ => targetU ≤ q1.2 ∧ q2.2 ≤ targetU)
            (r.zip u) with
        | some (q1, q2) =>
            let t := (targetU - q1.2) / (q2.2 - q1.2)
            some (q1.1 + t * (q2.1 - q1.1))
        | none => none

/-! ## Flux integrator -/

/-- The trapezoid loop: `Σ ½ (f(row_i) + f(row_{i+1})) * (r_{i+1} - r_i)`
over consecutive rows. -/
def trapzSum (f : ComputedRow → ℝ) : List ComputedRow → ℝ
  | a :: b :: l => 0.5 * (f a + f b) * (b.r - a.r) + trapzSum f (b :: l)
  | _ => 0

/-- Radius of the last row (`r[r.length - 1]`). -/
def lastR : List ComputedRow → ℝ
  | [] => 0
  | [a] => a.r
  | _ :: b :: l => lastR (b :: l)

/-- Mass flow: `2π` times the trapezoid sum of `f = ρ u r`, plus — when the
half radius is resolved, positive and there is at least one row (`Uc` is a
real number, hence always finite in this model) — the Gaussian tail
`(π ρ Uc / B) exp(-B rₙ²)` with `B = ln 2 / r½²`. -/
def mdotOf (rho Uc : ℝ) (rHalf : Option ℝ) (rows : List ComputedRow) : ℝ :=
  let trapz := 2 * Real.pi * trapzSum (fun p => rho * p.u * p.r) rows
  match rHalf with
  | some h =>
      if 0 < h ∧ 0 < rows.length then
        let B := Real.log 2 / (h * h)
        let rn := lastR rows
        trapz + Real.pi * rho * Uc / B * Real.exp (-B * rn * rn)
      else trapz
  | none => trapz

/-- Momentum flux: `2π` times the trapezoid sum of `g = ρ u² r`, plus the
tail `(π ρ Uc² / (2B)) exp(-2B rₙ²)` under the same condition. -/
def iOf (rho Uc : ℝ) (rHalf : Option ℝ) (rows : List ComputedRow) : ℝ :=
  let trapz := 2 * Real.pi * trapzSum (fun p => rho * p.u * p.u * p.r) rows
  match rHalf with
  | some h =>
      if 0 < h ∧ 0 < rows.length then
        let B := Real.log 2 / (h * h)
        let rn := lastR rows
        trapz + Real.pi * rho * Uc * Uc / (2 * B) * Real.exp (-2 * B * rn * rn)
      else trapz
  | none => trapz

/-- The warning pushed when `rHalf` came back unresolved. -/
def noCrossWarn (rHalf : Option ℝ) : List Warning :=
  match rHalf with
  | none => [Warning.noCrossing]
  | some _ => []

/-- The warning pushed when the tail correction is skipped. -/
def tailWarn (rHalf : Option ℝ) (rows : List ComputedRow) : List Warning :=
  match rHalf with
  | some h => if 0 < h ∧ 0 < rows.length then [] else [Warning.tailSkipped]
  | none => [Warning.tailSkipped]

/-! ## Similarity collapse and RMSE -/

/-- Normalized collapse points `(r / r½, u / Uc)`, or `[]` when `r½` is
unresolved or non-positive. -/
def collapseOf (Uc : ℝ) (rHalf : Option ℝ) (rows : List ComputedRow) :
    List (ℝ × ℝ) :=
  match rHalf with
  | some h => if 0 < h then rows.map fun p => (p.r / h, p.u / Uc) else []
  | none => []

/-- Squared deviation of one collapse point from the ideal Gaussian
`exp(-ln 2 · xr²)`. -/
def gaussSqErr (q : ℝ × ℝ) : ℝ :=
  (q.2 - Real.exp (-Real.log 2 * q.1 * q.1)) ^ 2

/-- `RMSE = sqrt(Σ err² / N)` over the collapse points, NaN (`none`) when
there are none. -/
def rmseOf (collapse : List (ℝ × ℝ)) : Option ℝ :=
  if collapse = [] then none
  else some (Real.sqrt ((collapse.map gaussSqErr).sum / (collapse.length : ℝ)))

/-! ## Station and batch orchestration -/

/-- The sorted computed rows of a station: parse, derive, sort by radius. -/
def stationRows (g : GlobalSettings) (st : StationData) : List ComputedRow :=
  sortRows ((parseRows st.rows).map (deriveRow g.kpa (rhoUsed g)))

/-- The body of `computeAll`'s per-station closure, for a station that
survived the x/D parse and the ≥ 2 valid rows requirement. -/
def buildStation (g : GlobalSettings) (st : StationData) (xd : ℝ) :
    ComputedStation :=
  let rho := rhoUsed g
  let rows := stationRows g st
  let Uc := estimateUc rows
  let rHalf := interpolateRhalf (rows.map fun p => p.r) (rows.map fun p => p.u) Uc
  let collapse := collapseOf Uc rHalf rows
  { id := st.id
    xd := xd
    rho := rho
    D := dUsed g
    rows := rows
    Uc := Uc
    rHalf := rHalf
    mdot := mdotOf rho Uc rHalf rows
    I := iOf rho Uc rHalf rows
    collapse := collapse
    rmse := rmseOf collapse
    warnings := scanWarnings rows ++ noCrossWarn rHalf ++ tailWarn rHalf rows }

/-- One station: `null` when x/D does not parse finite or fewer than 2 rows
parse, the built record otherwise. -/
def processStation (g : GlobalSettings) (st : StationData) :
    Option ComputedStation :=
  match st.xd with
  | none => none
  | some xd =>
      if (parseRows st.rows).length < 2 then none else some (buildStation g st xd)

/-- `computeAll`: map the per-station analysis over the batch, drop the
`null`s, return the input globals unchanged next to the survivors. -/
def computeAll (stations : List StationData) (g : GlobalSettings) :
    ComputedResults :=
  { globals := g, results := stations.filterMap (processStation g) }

/-! ## Statement-level abbreviations

`bracketAt` and `interpAt` name, for use in theorem statements, the
bracketing condition and the linear-interpolation formula of the two scan
loops of `interpolateRhalf` (`(l.getD j _)` is the j-th scanned pair). -/

/-- Pair `j` of `l` brackets the target value in its second components:
`target ≤ l[j].2` and `l[j+1].2 ≤ target`. -/
def bracketAt (target : ℝ) (l : List (ℝ × ℝ)) (j : ℕ) : Prop :=
  target ≤ (l.getD j (0, 0)).2 ∧ (l.getD (j + 1) (0, 0)).2 ≤ target

/-- Linear interpolation of the first components of pair `i` of `l` at the
target value of the second components:
`l[i].1 + (target - l[i].2) / (l[i+1].2 - l[i].2) * (l[i+1].1 - l[i].1)`. -/
def interpAt (target : ℝ) (l : List (ℝ × ℝ)) (i : ℕ) : ℝ :=
  (l.getD i (0, 0)).1 +
    (target - (l.getD i (0, 0)).2) / ((l.getD (i + 1) (0, 0)).2 - (l.getD i (0, 0)).2) *
      ((l.getD (i + 1) (0, 0)).1 - (l.getD i (0, 0)).1)

/-! ## Concrete example inputs and outputs

A worked batch used to witness the theorems on concrete data:
ρ = 2 kg/m³, Pa mode, one station at x/D = 10 with rows
(r = 0 mm, Δp = 16 Pa) and (r = 1000 mm, Δp = 1 Pa), so that the derived
velocities are 4 and 1 m/s, a second station whose Δp values are all 0,
a station with a negative parsed radius, and a settings record whose
density and diameter texts parse to negative numbers. -/

def exG : GlobalSettings := { rho := some 2, Dcm := some 254, kpa := false }

def exSt : StationData :=
  { id := 0, xd := some 10
    rows := [{ r := some 0, dp := some 16 }, { r := some 1000, dp := some 1 }] }

def exRow0 : ComputedRow := { r := 0, dpPa := 16, u := 4 }

def exRow1 : ComputedRow := { r := 1, dpPa := 1, u := 1 }

/-- The computed station for `exSt` under `exG`. -/
def exCS : ComputedStation :=
  { id := 0
    xd := 10
    rho := 2
    D := 2.54
    rows := [exRow0, exRow1]
    Uc := 4
    rHalf := some (Real.sqrt (1 / 2))
    mdot := 2 * Real.pi + Real.pi / Real.log 2
    I := 2 * Real.pi + Real.pi / (2 * Real.log 2)
    collapse := [(0, 1), (1 / Real.sqrt (1 / 2), 1 / 4)]
    rmse := some 0
    warnings := [] }

/-- A station whose Δp values are all zero: every derived velocity is 0
and `Uc = 0`. -/
def exSt2 : StationData :=
  { id := 1, xd := some 20
    rows := [{ r := some 0, dp := some 0 }, { r := some 1000, dp := some 0 }] }

def exRow20 : ComputedRow := { r := 0, dpPa := 0, u := 0 }

def exRow21 : ComputedRow := { r := 1, dpPa := 0, u := 0 }

/-- The computed station for `exSt2` under `exG`. -/
def exCS2 : ComputedStation :=
  { id := 1
    xd := 20
    rho := 2
    D := 2.54
    rows := [exRow20, exRow21]
    Uc := 0
    rHalf := none
    mdot := 0
    I := 0
    collapse := []
    rmse := none
    warnings := [Warning.noCrossing, Warning.tailSkipped] }

/-- A station with a row whose radius text parses to a negative number. -/
def stNeg : StationData :=
  { id := 2, xd := some 30
    rows := [{ r := some (-1), dp := some 1 }, { r := some 2, dp := some 1 }] }

def negRow0 : ComputedRow := { r := -(1 / 1000), dpPa := 1, u := 1 }

def negRow1 : ComputedRow := { r := 1 / 500, dpPa := 1, u := 1 }

/-- Settings whose density and diameter texts parse to negative numbers. -/
def gBad : GlobalSettings := { rho := some (-5), Dcm := some (-300), kpa := false }

/-- A station with no rows at all (fails the ≥ 2 valid rows requirement). -/
def stEmpty : StationData := { id := 3, xd := some 40, rows := [] }

end

/-! # Helper lemmas -/

theorem mem_sortRows {l : List ComputedRow} {x : ComputedRow} :
    x ∈ sortRows l ↔ x ∈ l :=
  List.mem_insertionSort rleR

theorem sorted_sortRows (l : List ComputedRow) : List.Sorted rleR (sortRows l) :=
  List.sorted_insertionSort rleR l

theorem sortRows_length (l : List ComputedRow) : (sortRows l).length = l.length :=
  List.length_insertionSort rleR l

theorem stationRows_length (g : GlobalSettings) (st : StationData) :
    (stationRows g st).length = (parseRows st.rows).length := by
  simp [stationRows, sortRows_length]

theorem buildStation_rows (g : GlobalSettings) (st : StationData) (xd : ℝ) :
    (buildStation g st xd).rows = stationRows g st := rfl

theorem buildStation_Uc (g : GlobalSettings) (st : StationData) (xd : ℝ) :
    (buildStation g st xd).Uc = estimateUc (stationRows g st) := rfl

theorem buildStation_rHalf (g : GlobalSettings) (st : StationData) (xd : ℝ) :
    (buildStation g st xd).rHalf =
      interpolateRhalf ((stationRows g st).map fun p => p.r)
        ((stationRows g st).map fun p => p.u) (estimateUc (stationRows g st)) := rfl

theorem buildStation_rho (g : GlobalSettings) (st : StationData) (xd : ℝ) :
    (buildStation g st xd).rho = rhoUsed g := rfl

theorem buildStation_mdot (g : GlobalSettings) (st : StationData) (xd : ℝ) :
    (buildStation g st xd).mdot =
      mdotOf (rhoUsed g) (estimateUc (stationRows g st)) (buildStation g st xd).rHalf
        (stationRows g st) := rfl

theorem buildStation_I (g : GlobalSettings) (st : StationData) (xd : ℝ) :
    (buildStation g st xd).I =
      iOf (rhoUsed g) (estimateUc (stationRows g st)) (buildStation g st xd).rHalf
        (stationRows g st) := rfl

theorem buildStation_collapse (g : GlobalSettings) (st : StationData) (xd : ℝ) :
    (buildStation g st xd).collapse =
      collapseOf (estimateUc (stationRows g st)) (buildStation g st xd).rHalf
        (stationRows g st) := rfl

theorem buildStation_rmse (g : GlobalSettings) (st : StationData) (xd : ℝ) :
    (buildStation g st xd).rmse = rmseOf (buildStation g st xd).collapse := rfl

theorem buildStation_warnings (g : GlobalSettings) (st : StationData) (xd : ℝ) :
    (buildStation g st xd).warnings =
      scanWarnings (stationRows g st) ++ noCrossWarn (buildStation g st xd).rHalf ++
        tailWarn (buildStation g st xd).rHalf (stationRows g st) := rfl

/-- Inversion of `processStation`: a station that produced a record had a
finite x/D, at least two valid rows, and the record is `buildStation`. -/
theorem processStation_eq_some {g : GlobalSettings} {st : StationData}
    {cs : ComputedStation} (h : processStation g st = some cs) :
    ∃ xd, st.xd = some xd ∧ 2 ≤ (parseRows st.rows).length ∧
      cs = buildStation g st xd := by
  unfold processStation at h
  split at h
  · exact absurd h (by simp)
  next xd hxd =>
    split at h
    · exact absurd h (by simp)
    next hl =>
      exact ⟨xd, hxd, by omega, (Option.some_inj.mp h).symm⟩

/-- The scan loop returns the first pair satisfying `p`. -/
theorem findPair_first {α : Type} (p : α → α → Prop) [DecidableRel p] (d : α) :
    ∀ (l : List α) (i : ℕ), i + 1 < l.length →
      p (l.getD i d) (l.getD (i + 1) d) →
      (∀ j, j < i → ¬p (l.getD j d) (l.getD (j + 1) d)) →
      findPair p l = some (l.getD i d, l.getD (i + 1) d) := by
  intro l
  induction l with
  | nil => intro i hi; simp at hi
  | cons a t ih =>
    intro i hi hp hfirst
    cases t with
    | nil => simp at hi
    | cons b t2 =>
      cases i with
      | zero =>
        simp only [List.getD_cons_zero, List.getD_cons_succ] at hp ⊢
        simp only [findPair]
        rw [if_pos hp]
      | succ k =>
        have h0 : ¬p a b := by simpa using hfirst 0 (Nat.succ_pos k)
        simp only [findPair]
        rw [if_neg h0]
        have hk : k + 1 < (b :: t2).length := by
          simp only [List.length_cons] at hi ⊢; omega
        have hpk : p ((b :: t2).getD k d) ((b :: t2).getD (k + 1) d) := by
          simpa [List.getD_cons_succ] using hp
        have hfk : ∀ j, j < k → ¬p ((b :: t2).getD j d) ((b :: t2).getD (j + 1) d) := by
          intro j hj
          simpa [List.getD_cons_succ] using hfirst (j + 1) (by omega)
        simpa [List.getD_cons_succ] using ih k hk hpk hfk

/-- The scan loop returns nothing when no consecutive pair satisfies `p`. -/
theorem findPair_none {α : Type} (p : α → α → Prop) [DecidableRel p] (d : α) :
    ∀ l : List α,
      (∀ j, j + 1 < l.length → ¬p (l.getD j d) (l.getD (j + 1) d)) →
      findPair p l = none := by
  intro l
  induction l with
  | nil => intro _; rfl
  | cons a t ih =>
    intro hnone
    cases t with
    | nil => rfl
    | cons b t2 =>
      have h0 : ¬p a b := by simpa using hnone 0 (by simp)
      simp only [findPair]
      rw [if_neg h0]
      refine ih fun j hj => ?_
      simpa [List.getD_cons_succ] using hnone (j + 1) (by simpa using Nat.succ_lt_succ hj)

/-! ### Evaluation of the worked examples -/

theorem rhoUsed_exG : rhoUsed exG = 2 := by
  norm_num [rhoUsed, parseOrDefault, exG]

theorem dUsed_exG : dUsed exG = 2.54 := by
  norm_num [dUsed, parseOrDefault, cm2m, exG]

theorem parseRows_exSt : parseRows exSt.rows = [(0, 16), (1000, 1)] := rfl

theorem parseRows_exSt2 : parseRows exSt2.rows = [(0, 0), (1000, 0)] := rfl

theorem parseRows_stNeg : parseRows stNeg.rows = [(-1, 1), (2, 1)] := rfl

theorem deriveRow_ex0 : deriveRow false 2 (0, 16) = exRow0 := by
  refine ComputedRow.ext ?_ ?_ ?_
  · show mm2m 0 = (0:ℝ)
    norm_num [mm2m]
  · rfl
  · show Real.sqrt (max 0 (2 * 16 / 2)) = 4
    rw [show max (0:ℝ) (2 * 16 / 2) = 4 ^ 2 by rw [max_eq_right (by norm_num)]; norm_num,
      Real.sqrt_sq (by norm_num : (0:ℝ) ≤ 4)]

theorem deriveRow_ex1 : deriveRow false 2 (1000, 1) = exRow1 := by
  refine ComputedRow.ext ?_ ?_ ?_
  · show mm2m 1000 = (1:ℝ)
    norm_num [mm2m]
  · rfl
  · show Real.sqrt (max 0 (2 * 1 / 2)) = 1
    rw [show max (0:ℝ) (2 * 1 / 2) = 1 by rw [max_eq_right] <;> norm_num, Real.sqrt_one]

theorem deriveRow_ex20 : deriveRow false 2 (0, 0) = exRow20 := by
  refine ComputedRow.ext ?_ ?_ ?_
  · show mm2m 0 = (0:ℝ)
    norm_num [mm2m]
  · rfl
  · show Real.sqrt (max 0 (2 * 0 / 2)) = 0
    rw [show max (0:ℝ) (2 * 0 / 2) = 0 by rw [max_eq_right] <;> norm_num, Real.sqrt_zero]

theorem deriveRow_ex21 : deriveRow false 2 (1000, 0) = exRow21 := by
  refine ComputedRow.ext ?_ ?_ ?_
  · show mm2m 1000 = (1:ℝ)
    norm_num [mm2m]
  · rfl
  · show Real.sqrt (max 0 (2 * 0 / 2)) = 0
    rw [show max (0:ℝ) (2 * 0 / 2) = 0 by rw [max_eq_right] <;> norm_num, Real.sqrt_zero]

theorem deriveRow_neg0 : deriveRow false 2 (-1, 1) = negRow0 := by
  refine ComputedRow.ext ?_ ?_ ?_
  · show mm2m (-1) = -(1 / 1000 : ℝ)
    norm_num [mm2m]
  · rfl
  · show Real.sqrt (max 0 (2 * 1 / 2)) = 1
    rw [show max (0:ℝ) (2 * 1 / 2) = 1 by rw [max_eq_right] <;> norm_num, Real.sqrt_one]

theorem deriveRow_neg1 : deriveRow false 2 (2, 1) = negRow1 := by
  refine ComputedRow.ext ?_ ?_ ?_
  · show mm2m 2 = (1 / 500 : ℝ)
    norm_num [mm2m]
  · rfl
  · show Real.sqrt (max 0 (2 * 1 / 2)) = 1
    rw [show max (0:ℝ) (2 * 1 / 2) = 1 by rw [max_eq_right] <;> norm_num, Real.sqrt_one]

theorem sortRows_pair {a b : ComputedRow} (h : a.r ≤ b.r) : sortRows [a, b] = [a, b] := by
  simp only [sortRows, List.insertionSort, List.orderedInsert]
  rw [if_pos (show rleR a b from h)]

theorem stationRows_exSt : stationRows exG exSt = [exRow0, exRow1] := by
  unfold stationRows
  rw [parseRows_exSt, rhoUsed_exG]
  show sortRows ([((0:ℝ), (16:ℝ)), (1000, 1)].map (deriveRow false 2)) = _
  rw [List.map_cons, List.map_cons, List.map_nil, deriveRow_ex0, deriveRow_ex1]
  exact sortRows_pair (by norm_num [exRow0, exRow1])

theorem stationRows_exSt2 : stationRows exG exSt2 = [exRow20, exRow21] := by
  unfold stationRows
  rw [parseRows_exSt2, rhoUsed_exG]
  show sortRows ([((0:ℝ), (0:ℝ)), (1000, 0)].map (deriveRow false 2)) = _
  rw [List.map_cons, List.map_cons, List.map_nil, deriveRow_ex20, deriveRow_ex21]
  exact sortRows_pair (by norm_num [exRow20, exRow21])

theorem stationRows_stNeg : stationRows exG stNeg = [negRow0, negRow1] := by
  unfold stationRows
  rw [parseRows_stNeg, rhoUsed_exG]
  show sortRows ([((-1:ℝ), (1:ℝ)), (2, 1)].map (deriveRow false 2)) = _
  rw [List.map_cons, List.map_cons, List.map_nil, deriveRow_neg0, deriveRow_neg1]
  exact sortRows_pair (by norm_num [negRow0, negRow1])

theorem estimateUc_ex : estimateUc [exRow0, exRow1] = 4 := by
  simp only [estimateUc]
  rw [if_pos (show exRow0.r = 0 from rfl)]
  rfl

theorem estimateUc_ex2 : estimateUc [exRow20, exRow21] = 0 := by
  simp only [estimateUc]
  rw [if_pos (show exRow20.r = 0 from rfl)]
  rfl

theorem log_four : Real.log 4 = 2 * Real.log 2 := by
  rw [show (4:ℝ) = 2 ^ 2 by norm_num, Real.log_pow]
  push_cast
  ring

theorem log_two_pos : (0:ℝ) < Real.log 2 := Real.log_pos (by norm_num)

theorem transformed_ex : transformedOf [0, 1] [4, 1] = [(0, Real.log 4), (1, Real.log 1)] := by
  unfold transformedOf
  show (([((0:ℝ), (4:ℝ)), (1, 1)]).filter fun p => decide (0 < p.2)).map
      (fun p => (p.1 * p.1, Real.log p.2)) = _
  simp only [List.filter_cons, List.filter_nil, decide_eq_true_eq]
  norm_num

theorem rhalf_ex : interpolateRhalf [0, 1] [4, 1] 4 = some (Real.sqrt (1 / 2)) := by
  simp only [interpolateRhalf]
  rw [if_neg (by norm_num : ¬(4:ℝ) ≤ 0), transformed_ex]
  have hf : findPair
      (fun p1 p2 : ℝ × ℝ => Real.log (4 / 2) ≤ p1.2 ∧ p2.2 ≤ Real.log (4 / 2))
      [(0, Real.log 4), (1, Real.log 1)] =
      some ((0, Real.log 4), (1, Real.log 1)) := by
    simp only [findPair]
    rw [if_pos]
    constructor
    · show Real.log (4 / 2) ≤ Real.log 4
      rw [show ((4:ℝ) / 2) = 2 by norm_num]
      exact Real.log_le_log (by norm_num) (by norm_num)
    · show Real.log 1 ≤ Real.log (4 / 2)
      rw [Real.log_one, show ((4:ℝ) / 2) = 2 by norm_num]
      exact le_of_lt log_two_pos
  rw [hf]
  have harg : (0:ℝ) + (Real.log (4 / 2) - Real.log 4) / (Real.log 1 - Real.log 4) * (1 - 0) =
      1 / 2 := by
    rw [Real.log_one, show ((4:ℝ) / 2) = 2 by norm_num, log_four]
    have h2 := log_two_pos.ne'
    field_simp
    ring
  show some (Real.sqrt ((0:ℝ) +
      (Real.log (4 / 2) - Real.log 4) / (Real.log 1 - Real.log 4) * (1 - 0))) =
    some (Real.sqrt (1 / 2))
  rw [harg]

theorem rhalf_ex2 : interpolateRhalf [0, 1] [0, 0] 0 = none := by
  simp only [interpolateRhalf]
  rw [if_pos le_rfl]

theorem sqrt_half_pos : 0 < Real.sqrt (1 / 2) := Real.sqrt_pos.mpr (by norm_num)

theorem sqrt_half_sq : Real.sqrt (1 / 2) * Real.sqrt (1 / 2) = 1 / 2 :=
  Real.mul_self_sqrt (by norm_num)

theorem exp_neg_two_log_two : Real.exp (-(2 * Real.log 2)) = 1 / 4 := by
  rw [← log_four, Real.exp_neg, Real.exp_log (by norm_num : (0:ℝ) < 4)]
  norm_num

theorem exp_neg_four_log_two : Real.exp (-(4 * Real.log 2)) = 1 / 16 := by
  have h : Real.log 16 = 4 * Real.log 2 := by
    rw [show (16:ℝ) = 2 ^ 4 by norm_num, Real.log_pow]
    push_cast
    ring
  rw [← h, Real.exp_neg, Real.exp_log (by norm_num : (0:ℝ) < 16)]
  norm_num

theorem trapz_mass_ex : trapzSum (fun p => 2 * p.u * p.r) [exRow0, exRow1] = 1 := by
  simp only [trapzSum]
  norm_num [exRow0, exRow1]

theorem trapz_mom_ex : trapzSum (fun p => 2 * p.u * p.u * p.r) [exRow0, exRow1] = 1 := by
  simp only [trapzSum]
  norm_num [exRow0, exRow1]

theorem mdot_ex : mdotOf 2 4 (some (Real.sqrt (1 / 2))) [exRow0, exRow1] =
    2 * Real.pi + Real.pi / Real.log 2 := by
  simp only [mdotOf]
  rw [if_pos ⟨sqrt_half_pos, by norm_num⟩, sqrt_half_sq, trapz_mass_ex,
    show lastR [exRow0, exRow1] = 1 from rfl,
    show Real.log 2 / (1 / 2 : ℝ) = 2 * Real.log 2 by ring,
    show -(2 * Real.log 2) * 1 * 1 = -(2 * Real.log 2) by ring,
    exp_neg_two_log_two]
  have h2 := log_two_pos.ne'
  field_simp
  ring

theorem iOf_ex : iOf 2 4 (some (Real.sqrt (1 / 2))) [exRow0, exRow1] =
    2 * Real.pi + Real.pi / (2 * Real.log 2) := by
  simp only [iOf]
  rw [if_pos ⟨sqrt_half_pos, by norm_num⟩, sqrt_half_sq, trapz_mom_ex,
    show lastR [exRow0, exRow1] = 1 from rfl,
    show Real.log 2 / (1 / 2 : ℝ) = 2 * Real.log 2 by ring,
    show -2 * (2 * Real.log 2) * 1 * 1 = -(4 * Real.log 2) by ring,
    exp_neg_four_log_two]
  have h2 := log_two_pos.ne'
  field_simp
  ring

theorem mdot_ex2 : mdotOf 2 0 none [exRow20, exRow21] = 0 := by
  simp only [mdotOf, trapzSum]
  norm_num [exRow20, exRow21]

theorem iOf_ex2 : iOf 2 0 none [exRow20, exRow21] = 0 := by
  simp only [iOf, trapzSum]
  norm_num [exRow20, exRow21]

theorem collapse_ex : collapseOf 4 (some (Real.sqrt (1 / 2))) [exRow0, exRow1] =
    [(0, 1), (1 / Real.sqrt (1 / 2), 1 / 4)] := by
  simp only [collapseOf]
  rw [if_pos sqrt_half_pos]
  simp only [List.map_cons, List.map_nil]
  norm_num [exRow0, exRow1]

theorem rmse_ex : rmseOf [(0, 1), (1 / Real.sqrt (1 / 2), 1 / 4)] = some 0 := by
  have hx : (1 / Real.sqrt (1 / 2)) * (1 / Real.sqrt (1 / 2)) = 2 := by
    rw [div_mul_div_comm, one_mul, sqrt_half_sq]
    norm_num
  have hg1 : gaussSqErr (0, 1) = 0 := by
    unfold gaussSqErr
    norm_num
  have hg2 : gaussSqErr (1 / Real.sqrt (1 / 2), 1 / 4) = 0 := by
    unfold gaussSqErr
    rw [show -Real.log 2 * (1 / Real.sqrt (1 / 2), (1 / 4 : ℝ)).1 *
          (1 / Real.sqrt (1 / 2), (1 / 4 : ℝ)).1 = -(2 * Real.log 2) by
        show -Real.log 2 * (1 / Real.sqrt (1 / 2)) * (1 / Real.sqrt (1 / 2)) = _
        rw [mul_assoc, hx]
        ring,
      exp_neg_two_log_two]
    norm_num
  unfold rmseOf
  rw [if_neg (by simp)]
  simp only [List.map_cons, List.map_nil, List.sum_cons, List.sum_nil, hg1, hg2]
  norm_num [Real.sqrt_zero]

theorem scanWarnings_ex : scanWarnings [exRow0, exRow1] = [] := by
  simp only [scanWarnings]
  rw [if_neg (by norm_num [exRow0, exRow1] : ¬exRow1.r = exRow0.r),
    if_neg (by norm_num [exRow0, exRow1] : ¬exRow0.u < exRow1.u)]
  rfl

theorem scanWarnings_ex2 : scanWarnings [exRow20, exRow21] = [] := by
  simp only [scanWarnings]
  rw [if_neg (by norm_num [exRow20, exRow21] : ¬exRow21.r = exRow20.r),
    if_neg (by norm_num [exRow20, exRow21] : ¬exRow20.u < exRow21.u)]
  rfl

theorem buildStation_ex : buildStation exG exSt 10 = exCS := by
  have hrows := stationRows_exSt
  have hmap_r : [exRow0, exRow1].map (fun p : ComputedRow => p.r) = [0, 1] := rfl
  have hmap_u : [exRow0, exRow1].map (fun p : ComputedRow => p.u) = [4, 1] := rfl
  have hhalf : (buildStation exG exSt 10).rHalf = some (Real.sqrt (1 / 2)) := by
    rw [buildStation_rHalf, hrows, estimateUc_ex, hmap_r, hmap_u, rhalf_ex]
  have hcol : (buildStation exG exSt 10).collapse =
      [(0, 1), (1 / Real.sqrt (1 / 2), 1 / 4)] := by
    rw [buildStation_collapse, hhalf, hrows, estimateUc_ex, collapse_ex]
  refine ComputedStation.ext rfl rfl ?_ ?_ ?_ ?_ ?_ ?_ ?_ ?_ ?_ ?_
  · rw [buildStation_rho, rhoUsed_exG]
    rfl
  · rw [show (buildStation exG exSt 10).D = dUsed exG from rfl, dUsed_exG]
    rfl
  · rw [buildStation_rows, hrows]
    rfl
  · rw [buildStation_Uc, hrows, estimateUc_ex]
    rfl
  · rw [hhalf]
    rfl
  · rw [buildStation_mdot, hhalf, rhoUsed_exG, hrows, estimateUc_ex, mdot_ex]
    rfl
  · rw [buildStation_I, hhalf, rhoUsed_exG, hrows, estimateUc_ex, iOf_ex]
    rfl
  · rw [hcol]
    rfl
  · rw [buildStation_rmse, hcol, rmse_ex]
    rfl
  · rw [buildStation_warnings, hhalf, hrows, scanWarnings_ex]
    simp only [noCrossWarn, tailWarn]
    rw [if_pos ⟨sqrt_half_pos, by norm_num⟩]
    rfl

theorem processStation_ex : processStation exG exSt = some exCS := by
  show some (buildStation exG exSt 10) = some exCS
  rw [buildStation_ex]

theorem buildStation_ex2 : buildStation exG exSt2 20 = exCS2 := by
  have hrows := stationRows_exSt2
  have hmap_r : [exRow20, exRow21].map (fun p : ComputedRow => p.r) = [0, 1] := rfl
  have hmap_u : [exRow20, exRow21].map (fun p : ComputedRow => p.u) = [0, 0] := rfl
  have hhalf : (buildStation exG exSt2 20).rHalf = none := by
    rw [buildStation_rHalf, hrows, estimateUc_ex2, hmap_r, hmap_u, rhalf_ex2]
  have hcol : (buildStation exG exSt2 20).collapse = [] := by
    rw [buildStation_collapse, hhalf]
    rfl
  refine ComputedStation.ext rfl rfl ?_ ?_ ?_ ?_ ?_ ?_ ?_ ?_ ?_ ?_
  · rw [buildStation_rho, rhoUsed_exG]
    rfl
  · rw [show (buildStation exG exSt2 20).D = dUsed exG from rfl, dUsed_exG]
    rfl
  · rw [buildStation_rows, hrows]
    rfl
  · rw [buildStation_Uc, hrows, estimateUc_ex2]
    rfl
  · rw [hhalf]
    rfl
  · rw [buildStation_mdot, hhalf, rhoUsed_exG, hrows, estimateUc_ex2, mdot_ex2]
    rfl
  · rw [buildStation_I, hhalf, rhoUsed_exG, hrows, estimateUc_ex2, iOf_ex2]
    rfl
  · rw [hcol]
    rfl
  · rw [buildStation_rmse, hcol]
    rfl
  · rw [buildStation_warnings, hhalf, hrows, scanWarnings_ex2]
    rfl

theorem processStation_ex2 : processStation exG exSt2 = some exCS2 := by
  show some (buildStation exG exSt2 20) = some exCS2
  rw [buildStation_ex2]

theorem processStation_stNeg :
    processStation exG stNeg = some (buildStation exG stNeg 30) := rfl

/-- The trapezoid loop as a sum over the list of consecutive pairs. -/
theorem trapzSum_eq_pairs (f : ComputedRow → ℝ) (l : List ComputedRow) :
    trapzSum f l =
      ((l.zip l.tail).map fun q => 0.5 * (f q.1 + f q.2) * (q.2.r - q.1.r)).sum := by
  induction l with
  | nil => rfl
  | cons a t ih =>
    cases t with
    | nil => rfl
    | cons b t2 =>
      simp only [trapzSum, List.tail_cons, List.zip_cons_cons, List.map_cons, List.sum_cons]
      rw [ih]
      rfl

/-! # Claim theorems -/

/-- C1: for every parsed row of a processed station (both texts parse to
finite floats), the derived velocity equals `sqrt(2·Δp_Pa/ρ)` when
`Δp_Pa ≥ 0` and exactly 0 (never NaN) when `Δp_Pa < 0`, where
`Δp_Pa = 1000·Δp` in kPa mode and `Δp_Pa = Δp` in Pa mode (ρ positive per
the spec's input constraint). -/
theorem C1_row_velocity {g : GlobalSettings} {st : StationData} {cs : ComputedStation}
    (h : processStation g st = some cs) (hrho : 0 < rhoUsed g) :
    ∀ p ∈ parseRows st.rows,
      deriveRow g.kpa (rhoUsed g) p ∈ cs.rows ∧
      (deriveRow g.kpa (rhoUsed g) p).dpPa = (if g.kpa then 1000 * p.2 else p.2) ∧
      (0 ≤ (deriveRow g.kpa (rhoUsed g) p).dpPa →
        (deriveRow g.kpa (rhoUsed g) p).u =
          Real.sqrt (2 * (deriveRow g.kpa (rhoUsed g) p).dpPa / rhoUsed g)) ∧
      ((deriveRow g.kpa (rhoUsed g) p).dpPa < 0 →
        (deriveRow g.kpa (rhoUsed g) p).u = 0) := by
  obtain ⟨xd, hxd, hlen, hcs⟩ := processStation_eq_some h
  intro p hp
  refine ⟨?_, ?_, ?_, ?_⟩
  · rw [hcs, buildStation_rows]
    unfold stationRows
    exact mem_sortRows.mpr (List.mem_map_of_mem _ hp)
  · show (if g.kpa then kPa2Pa p.2 else p.2) = _
    cases g.kpa <;> simp [kPa2Pa, mul_comm]
  · intro hge
    show Real.sqrt (max 0 (2 * (deriveRow g.kpa (rhoUsed g) p).dpPa / rhoUsed g)) = _
    rw [max_eq_right (div_nonneg (by linarith) hrho.le)]
  · intro hlt
    show Real.sqrt (max 0 (2 * (deriveRow g.kpa (rhoUsed g) p).dpPa / rhoUsed g)) = 0
    rw [max_eq_left (le_of_lt (div_neg_of_neg_of_pos (by linarith) hrho)),
      Real.sqrt_zero]

/-- Witness for C1 at the worked example (ρ = 2, Pa mode, row (0 mm, 16 Pa)). -/
theorem C1_row_velocity_witness :
    (0:ℝ) < rhoUsed exG ∧ ((0:ℝ), (16:ℝ)) ∈ parseRows exSt.rows ∧
    (deriveRow exG.kpa (rhoUsed exG) (0, 16) ∈ exCS.rows ∧
      (deriveRow exG.kpa (rhoUsed exG) (0, 16)).dpPa =
        (if exG.kpa then 1000 * ((0:ℝ), (16:ℝ)).2 else ((0:ℝ), (16:ℝ)).2) ∧
      (0 ≤ (deriveRow exG.kpa (rhoUsed exG) (0, 16)).dpPa →
        (deriveRow exG.kpa (rhoUsed exG) (0, 16)).u =
          Real.sqrt (2 * (deriveRow exG.kpa (rhoUsed exG) (0, 16)).dpPa / rhoUsed exG)) ∧
      ((deriveRow exG.kpa (rhoUsed exG) (0, 16)).dpPa < 0 →
        (deriveRow exG.kpa (rhoUsed exG) (0, 16)).u = 0)) :=
  ⟨by rw [rhoUsed_exG]; norm_num, by rw [parseRows_exSt]; simp,
    C1_row_velocity processStation_ex (by rw [rhoUsed_exG]; norm_num) (0, 16)
      (by rw [parseRows_exSt]; simp)⟩

/-- C7: with the same numeric Δp and ρ, kPa mode yields exactly
`sqrt 1000` times the Pa-mode velocity; with positive ρ both are zero for
negative Δp. -/
theorem C7_unit_scaling (rho rmm dp : ℝ) :
    (deriveRow true rho (rmm, dp)).u =
      Real.sqrt 1000 * (deriveRow false rho (rmm, dp)).u ∧
    (0 < rho → dp < 0 →
      (deriveRow true rho (rmm, dp)).u = 0 ∧ (deriveRow false rho (rmm, dp)).u = 0) := by
  have hkey : 2 * kPa2Pa dp / rho = 1000 * (2 * dp / rho) := by
    unfold kPa2Pa
    ring
  constructor
  · show Real.sqrt (max 0 (2 * kPa2Pa dp / rho)) =
      Real.sqrt 1000 * Real.sqrt (max 0 (2 * dp / rho))
    rw [hkey]
    rcases le_total (2 * dp / rho) 0 with hx | hx
    · rw [max_eq_left hx, max_eq_left (by nlinarith), Real.sqrt_zero, mul_zero]
    · rw [max_eq_right hx, max_eq_right (by nlinarith),
        ← Real.sqrt_mul (by norm_num : (0:ℝ) ≤ 1000)]
  · intro hrho hdp
    have hx : 2 * dp / rho ≤ 0 := le_of_lt (div_neg_of_neg_of_pos (by linarith) hrho)
    constructor
    · show Real.sqrt (max 0 (2 * kPa2Pa dp / rho)) = 0
      rw [hkey, max_eq_left (by nlinarith), Real.sqrt_zero]
    · show Real.sqrt (max 0 (2 * dp / rho)) = 0
      rw [max_eq_left hx, Real.sqrt_zero]

/-- Witness for C7 at ρ = 1, Δp = −1. -/
theorem C7_unit_scaling_witness :
    (0:ℝ) < 1 ∧ (-1:ℝ) < 0 ∧
      ((deriveRow true 1 (5, -1)).u = 0 ∧ (deriveRow false 1 (5, -1)).u = 0) :=
  ⟨by norm_num, by norm_num, (C7_unit_scaling 1 5 (-1)).2 (by norm_num) (by norm_num)⟩

/-- C8 counterexample: a row whose radius text parses to −1 (mm) passes the
finiteness filter and produces a ComputedRow with radius −0.001 m < 0, so
the claimed invariant `radius ≥ 0` fails for negative parsed radii. -/
theorem C8_negative_radius_cex :
    (processStation exG stNeg).map (fun cs => cs.rows) = some [negRow0, negRow1] ∧
    negRow0.r < 0 := by
  constructor
  · rw [processStation_stNeg]
    show some ((buildStation exG stNeg 30).rows) = _
    rw [buildStation_rows, stationRows_stNeg]
  · norm_num [negRow0]

/-- C8 (amended): every ComputedRow of a processed station has velocity ≥ 0
(negative Δp clamps to 0, never NaN); its radius is the parsed millimetre
value divided by 1000, so radius ≥ 0 holds exactly for rows whose parsed
radius is ≥ 0 (negative parsed radii yield negative radii). -/
theorem C8_row_invariants {g : GlobalSettings} {st : StationData} {cs : ComputedStation}
    (h : processStation g st = some cs) :
    (∀ row ∈ cs.rows, 0 ≤ row.u) ∧
    (∀ p ∈ parseRows st.rows, (deriveRow g.kpa (rhoUsed g) p).r = p.1 / 1000 ∧
      (0 ≤ p.1 → 0 ≤ (deriveRow g.kpa (rhoUsed g) p).r)) := by
  obtain ⟨xd, hxd, hlen, hcs⟩ := processStation_eq_some h
  constructor
  · intro row hrow
    rw [hcs, buildStation_rows] at hrow
    unfold stationRows at hrow
    obtain ⟨p, hp, hrowp⟩ := List.mem_map.mp (mem_sortRows.mp hrow)
    rw [← hrowp]
    exact Real.sqrt_nonneg _
  · intro p hp
    refine ⟨rfl, fun hge => ?_⟩
    show (0:ℝ) ≤ p.1 / 1000
    exact div_nonneg hge (by norm_num)

/-- Witness for C8 (amended) at the worked example. -/
theorem C8_row_invariants_witness :
    (0:ℝ) ≤ exRow0.u ∧ ((0:ℝ), (16:ℝ)) ∈ parseRows exSt.rows ∧
      ((deriveRow exG.kpa (rhoUsed exG) (0, 16)).r = (0:ℝ) / 1000 ∧
        (0 ≤ ((0:ℝ), (16:ℝ)).1 → 0 ≤ (deriveRow exG.kpa (rhoUsed exG) (0, 16)).r)) :=
  ⟨(C8_row_invariants processStation_ex).1 exRow0 (by simp [exCS]),
    by rw [parseRows_exSt]; simp,
    (C8_row_invariants processStation_ex).2 (0, 16) (by rw [parseRows_exSt]; simp)⟩

/-- C9 counterexample: a density text parsing to −5 is used as-is (the `||`
fallback only catches NaN and 0), so the density actually used is neither
positive nor the default 1.204; similarly for a negative diameter text. -/
theorem C9_negative_settings_cex :
    rhoUsed gBad = -5 ∧ ¬0 < rhoUsed gBad ∧ rhoUsed gBad ≠ 1.204 ∧
    dUsed gBad = -3 ∧ dUsed gBad ≠ cm2m 2.54 := by
  have h1 : rhoUsed gBad = -5 := by norm_num [rhoUsed, parseOrDefault, gBad]
  have h2 : dUsed gBad = -3 := by norm_num [dUsed, parseOrDefault, cm2m, gBad]
  refine ⟨h1, ?_, ?_, h2, ?_⟩
  · rw [h1]
    norm_num
  · rw [h1]
    norm_num
  · rw [h2]
    norm_num [cm2m]

/-- C9 (amended): the defaults 1.204 kg/m³ and 2.54 cm apply exactly when
the setting is missing/NaN or parses to 0; any other parsed value —
including negative ones — is used as-is, and no settings input raises an
error. -/
theorem C9_settings_fallback (g : GlobalSettings) :
    ((g.rho = none ∨ g.rho = some 0) → rhoUsed g = 1.204) ∧
    (∀ x, g.rho = some x → x ≠ 0 → rhoUsed g = x) ∧
    ((g.Dcm = none ∨ g.Dcm = some 0) → dUsed g = cm2m 2.54) ∧
    (∀ x, g.Dcm = some x → x ≠ 0 → dUsed g = cm2m x) := by
  refine ⟨?_, ?_, ?_, ?_⟩
  · rintro (h | h) <;> simp [rhoUsed, parseOrDefault, h]
  · intro x hx hne
    simp [rhoUsed, parseOrDefault, hx, hne]
  · rintro (h | h) <;> simp [dUsed, parseOrDefault, h]
  · intro x hx hne
    simp [dUsed, parseOrDefault, hx, hne]

/-- Witness for C9 (amended) at the negative-settings example. -/
theorem C9_settings_fallback_witness :
    gBad.rho = some (-5) ∧ (-5:ℝ) ≠ 0 ∧ rhoUsed gBad = -5 ∧
    gBad.Dcm = some (-300) ∧ (-300:ℝ) ≠ 0 ∧ dUsed gBad = cm2m (-300) :=
  ⟨rfl, by norm_num, (C9_settings_fallback gBad).2.1 (-5) rfl (by norm_num),
    rfl, by norm_num, (C9_settings_fallback gBad).2.2.2 (-300) rfl (by norm_num)⟩

/-- C2: the centerline velocity of a processed station: with the rows
sorted ascending by radius, if the innermost radius is exactly 0 then Uc is
that row's velocity; otherwise the two innermost rows give either linear
interpolation at r = 0 (when |r1² − r2²| < 1e-12) or the quadratic
extrapolation `Uc = u1 − a·r1²` with `a = (u1 − u2)/(r1² − r2²)`. -/
theorem C2_centerline {g : GlobalSettings} {st : StationData} {cs : ComputedStation}
    (h : processStation g st = some cs) {p1 p2 : ComputedRow} {rest : List ComputedRow}
    (hrows : cs.rows = p1 :: p2 :: rest) :
    (p1.r = 0 → cs.Uc = p1.u) ∧
    (p1.r ≠ 0 →
      (|p1.r * p1.r - p2.r * p2.r| < 1e-12 →
        cs.Uc = p1.u + (p2.u - p1.u) * (0 - p1.r) / (p2.r - p1.r)) ∧
      (¬|p1.r * p1.r - p2.r * p2.r| < 1e-12 →
        cs.Uc = p1.u - (p1.u - p2.u) / (p1.r * p1.r - p2.r * p2.r) * (p1.r * p1.r))) := by
  obtain ⟨xd, hxd, hlen, hcs⟩ := processStation_eq_some h
  have h1 : stationRows g st = p1 :: p2 :: rest := by
    rw [← buildStation_rows g st xd, ← hcs]
    exact hrows
  have hUc : cs.Uc = estimateUc (p1 :: p2 :: rest) := by
    rw [hcs, buildStation_Uc, h1]
  rw [hUc]
  simp only [estimateUc]
  refine ⟨fun h0 => by rw [if_pos h0], fun h0 => ⟨fun hc => ?_, fun hc => ?_⟩⟩
  · rw [if_neg h0, if_pos hc]
  · rw [if_neg h0, if_neg hc]

/-- Witness for C2 at the worked example (innermost radius exactly 0). -/
theorem C2_centerline_witness :
    exCS.rows = exRow0 :: exRow1 :: [] ∧ (exRow0.r = 0 → exCS.Uc = exRow0.u) :=
  ⟨rfl, (C2_centerline processStation_ex rfl).1⟩

/-- C10: a processed station whose estimated Uc is ≤ 0 gets `none` (NaN)
from the half-radius solver's first guard without either scan resolving a
value, hence the no-crossing warning, an empty collapse sequence, NaN RMSE,
and uncorrected trapezoidal mdot and I plus the tail-skipped warning. -/
theorem C10_nonpositive_Uc {g : GlobalSettings} {st : StationData} {cs : ComputedStation}
    (h : processStation g st = some cs) (hUc : cs.Uc ≤ 0) :
    interpolateRhalf (cs.rows.map fun p => p.r) (cs.rows.map fun p => p.u) cs.Uc = none ∧
    cs.rHalf = none ∧ Warning.noCrossing ∈ cs.warnings ∧
    cs.collapse = [] ∧ cs.rmse = none ∧
    cs.mdot = 2 * Real.pi * trapzSum (fun p => cs.rho * p.u * p.r) cs.rows ∧
    cs.I = 2 * Real.pi * trapzSum (fun p => cs.rho * p.u * p.u * p.r) cs.rows ∧
    Warning.tailSkipped ∈ cs.warnings := by
  obtain ⟨xd, hxd, hlen, hcs⟩ := processStation_eq_some h
  subst hcs
  have hUc2 : estimateUc (stationRows g st) ≤ 0 := hUc
  have hh : (buildStation g st xd).rHalf = none := by
    rw [buildStation_rHalf]
    simp only [interpolateRhalf]
    rw [if_pos hUc2]
  have hc : (buildStation g st xd).collapse = [] := by
    rw [buildStation_collapse, hh]
    rfl
  refine ⟨?_, hh, ?_, hc, ?_, ?_, ?_, ?_⟩
  · simp only [interpolateRhalf]
    rw [if_pos hUc]
  · rw [buildStation_warnings, hh]
    simp [noCrossWarn]
  · rw [buildStation_rmse, hc]
    simp [rmseOf]
  · rw [buildStation_mdot, hh, buildStation_rho, buildStation_rows]
    rfl
  · rw [buildStation_I, hh, buildStation_rho, buildStation_rows]
    rfl
  · rw [buildStation_warnings, hh]
    simp [tailWarn]

/-- Witness for C10 at the all-zero-Δp station (Uc = 0). -/
theorem C10_nonpositive_Uc_witness :
    exCS2.Uc ≤ 0 ∧
    (interpolateRhalf (exCS2.rows.map fun p => p.r) (exCS2.rows.map fun p => p.u)
        exCS2.Uc = none ∧
      exCS2.rHalf = none ∧ Warning.noCrossing ∈ exCS2.warnings ∧
      exCS2.collapse = [] ∧ exCS2.rmse = none ∧
      exCS2.mdot = 2 * Real.pi * trapzSum (fun p => exCS2.rho * p.u * p.r) exCS2.rows ∧
      exCS2.I = 2 * Real.pi * trapzSum (fun p => exCS2.rho * p.u * p.u * p.r) exCS2.rows ∧
      Warning.tailSkipped ∈ exCS2.warnings) :=
  ⟨le_refl 0, C10_nonpositive_Uc processStation_ex2 (le_refl 0)⟩

/-- C5: when r½ is resolved and positive the collapse sequence is
`(r/r½, u/Uc)` per sorted row and RMSE is the root of the mean squared
deviation from the ideal Gaussian `exp(−ln2·xr²)`; when r½ is unresolved
or non-positive the collapse sequence is empty and RMSE is NaN. -/
theorem C5_collapse_rmse {g : GlobalSettings} {st : StationData} {cs : ComputedStation}
    (h : processStation g st = some cs) :
    (∀ rh, cs.rHalf = some rh → 0 < rh →
      cs.collapse = cs.rows.map (fun p => (p.r / rh, p.u / cs.Uc)) ∧
      cs.rmse = some (Real.sqrt ((cs.collapse.map fun q =>
        (q.2 - Real.exp (-Real.log 2 * q.1 * q.1)) ^ 2).sum /
          (cs.collapse.length : ℝ)))) ∧
    ((¬∃ rh, cs.rHalf = some rh ∧ 0 < rh) → cs.collapse = [] ∧ cs.rmse = none) := by
  obtain ⟨xd, hxd, hlen, hcs⟩ := processStation_eq_some h
  subst hcs
  constructor
  · intro rh hrh hpos
    have hcol : (buildStation g st xd).collapse =
        (stationRows g st).map
          (fun p => (p.r / rh, p.u / estimateUc (stationRows g st))) := by
      rw [buildStation_collapse, hrh]
      simp only [collapseOf]
      rw [if_pos hpos]
    refine ⟨?_, ?_⟩
    · rw [hcol, buildStation_rows, buildStation_Uc]
    · rw [buildStation_rmse]
      have hne : (buildStation g st xd).collapse ≠ [] := by
        rw [hcol]
        have h0 : stationRows g st ≠ [] := by
          have hL := stationRows_length g st
          intro hnil
          rw [hnil] at hL
          simp at hL
          omega
        simpa using h0
      unfold rmseOf
      rw [if_neg hne]
      rfl
  · intro hno
    cases hrh : (buildStation g st xd).rHalf with
    | none =>
      have hcol : (buildStation g st xd).collapse = [] := by
        rw [buildStation_collapse, hrh]
        rfl
      exact ⟨hcol, by rw [buildStation_rmse, hcol]; simp [rmseOf]⟩
    | some rh =>
      have hpos : ¬0 < rh := fun hp => hno ⟨rh, hrh, hp⟩
      have hcol : (buildStation g st xd).collapse = [] := by
        rw [buildStation_collapse, hrh]
        simp only [collapseOf]
        rw [if_neg hpos]
      exact ⟨hcol, by rw [buildStation_rmse, hcol]; simp [rmseOf]⟩

/-- Witness for C5 at the worked example (r½ = sqrt(1/2) > 0). -/
theorem C5_collapse_rmse_witness :
    exCS.rHalf = some (Real.sqrt (1 / 2)) ∧ 0 < Real.sqrt (1 / 2) ∧
    (exCS.collapse = exCS.rows.map
        (fun p => (p.r / Real.sqrt (1 / 2), p.u / exCS.Uc)) ∧
      exCS.rmse = some (Real.sqrt ((exCS.collapse.map fun q =>
        (q.2 - Real.exp (-Real.log 2 * q.1 * q.1)) ^ 2).sum /
          (exCS.collapse.length : ℝ)))) :=
  ⟨rfl, sqrt_half_pos,
    (C5_collapse_rmse processStation_ex).1 (Real.sqrt (1 / 2)) rfl sqrt_half_pos⟩

/-- C4: mdot and I of a processed station equal the 2π-scaled trapezoidal
sums of f = ρur and g = ρu²r over consecutive sorted rows, plus — exactly
when r½ is resolved and positive (Uc is always a real number in this
model) — the Gaussian tail corrections `(πρUc/B)exp(−B·rₙ²)` and
`(πρUc²/(2B))exp(−2B·rₙ²)` with `B = ln2/r½²` and rₙ the outermost radius;
otherwise they are the bare trapezoidal totals and the tail-skipped
warning is recorded. -/
theorem C4_flux_integrals {g : GlobalSettings} {st : StationData} {cs : ComputedStation}
    (h : processStation g st = some cs) :
    (∀ rh, cs.rHalf = some rh → 0 < rh →
      cs.mdot = 2 * Real.pi * ((cs.rows.zip cs.rows.tail).map fun q =>
          0.5 * (cs.rho * q.1.u * q.1.r + cs.rho * q.2.u * q.2.r) *
            (q.2.r - q.1.r)).sum +
        Real.pi * cs.rho * cs.Uc / (Real.log 2 / (rh * rh)) *
          Real.exp (-(Real.log 2 / (rh * rh)) * lastR cs.rows * lastR cs.rows) ∧
      cs.I = 2 * Real.pi * ((cs.rows.zip cs.rows.tail).map fun q =>
          0.5 * (cs.rho * q.1.u * q.1.u * q.1.r + cs.rho * q.2.u * q.2.u * q.2.r) *
            (q.2.r - q.1.r)).sum +
        Real.pi * cs.rho * cs.Uc * cs.Uc / (2 * (Real.log 2 / (rh * rh))) *
          Real.exp (-2 * (Real.log 2 / (rh * rh)) * lastR cs.rows * lastR cs.rows)) ∧
    ((¬∃ rh, cs.rHalf = some rh ∧ 0 < rh) →
      cs.mdot = 2 * Real.pi * ((cs.rows.zip cs.rows.tail).map fun q =>
          0.5 * (cs.rho * q.1.u * q.1.r + cs.rho * q.2.u * q.2.r) *
            (q.2.r - q.1.r)).sum ∧
      cs.I = 2 * Real.pi * ((cs.rows.zip cs.rows.tail).map fun q =>
          0.5 * (cs.rho * q.1.u * q.1.u * q.1.r + cs.rho * q.2.u * q.2.u * q.2.r) *
            (q.2.r - q.1.r)).sum ∧
      Warning.tailSkipped ∈ cs.warnings) := by
  obtain ⟨xd, hxd, hlen, hcs⟩ := processStation_eq_some h
  subst hcs
  have hrows0 : 0 < (stationRows g st).length := by
    rw [stationRows_length]
    omega
  constructor
  · intro rh hrh hpos
    constructor
    · rw [buildStation_mdot, hrh, buildStation_rho, buildStation_rows, buildStation_Uc]
      simp only [mdotOf]
      rw [if_pos ⟨hpos, hrows0⟩, trapzSum_eq_pairs]
    · rw [buildStation_I, hrh, buildStation_rho, buildStation_rows, buildStation_Uc]
      simp only [iOf]
      rw [if_pos ⟨hpos, hrows0⟩, trapzSum_eq_pairs]
  · intro hno
    have hmd : (buildStation g st xd).mdot =
        2 * Real.pi * trapzSum (fun p => rhoUsed g * p.u * p.r) (stationRows g st) := by
      rw [buildStation_mdot]
      cases hrh : (buildStation g st xd).rHalf with
      | none => rfl
      | some rh =>
        have hpos : ¬0 < rh := fun hp => hno ⟨rh, hrh, hp⟩
        simp only [mdotOf]
        rw [if_neg fun hcond => hpos hcond.1]
    have hi : (buildStation g st xd).I =
        2 * Real.pi * trapzSum (fun p => rhoUsed g * p.u * p.u * p.r) (stationRows g st) := by
      rw [buildStation_I]
      cases hrh : (buildStation g st xd).rHalf with
      | none => rfl
      | some rh =>
        have hpos : ¬0 < rh := fun hp => hno ⟨rh, hrh, hp⟩
        simp only [iOf]
        rw [if_neg fun hcond => hpos hcond.1]
    refine ⟨?_, ?_, ?_⟩
    · rw [buildStation_rho, buildStation_rows, hmd, trapzSum_eq_pairs]
    · rw [buildStation_rho, buildStation_rows, hi, trapzSum_eq_pairs]
    · rw [buildStation_warnings]
      cases hrh : (buildStation g st xd).rHalf with
      | none => simp [tailWarn]
      | some rh =>
        have hpos : ¬0 < rh := fun hp => hno ⟨rh, hrh, hp⟩
        simp only [tailWarn]
        rw [if_neg fun hcond => hpos hcond.1]
        simp

/-- Witness for C4 at the worked example (tail correction applied). -/
theorem C4_flux_integrals_witness :
    exCS.rHalf = some (Real.sqrt (1 / 2)) ∧ 0 < Real.sqrt (1 / 2) ∧
    (exCS.mdot = 2 * Real.pi * ((exCS.rows.zip exCS.rows.tail).map fun q =>
        0.5 * (exCS.rho * q.1.u * q.1.r + exCS.rho * q.2.u * q.2.r) *
          (q.2.r - q.1.r)).sum +
      Real.pi * exCS.rho * exCS.Uc /
          (Real.log 2 / (Real.sqrt (1 / 2) * Real.sqrt (1 / 2))) *
        Real.exp (-(Real.log 2 / (Real.sqrt (1 / 2) * Real.sqrt (1 / 2))) *
          lastR exCS.rows * lastR exCS.rows) ∧
      exCS.I = 2 * Real.pi * ((exCS.rows.zip exCS.rows.tail).map fun q =>
        0.5 * (exCS.rho * q.1.u * q.1.u * q.1.r + exCS.rho * q.2.u * q.2.u * q.2.r) *
          (q.2.r - q.1.r)).sum +
      Real.pi * exCS.rho * exCS.Uc * exCS.Uc /
          (2 * (Real.log 2 / (Real.sqrt (1 / 2) * Real.sqrt (1 / 2)))) *
        Real.exp (-2 * (Real.log 2 / (Real.sqrt (1 / 2) * Real.sqrt (1 / 2))) *
          lastR exCS.rows * lastR exCS.rows)) :=
  ⟨rfl, sqrt_half_pos,
    (C4_flux_integrals processStation_ex).1 (Real.sqrt (1 / 2)) rfl sqrt_half_pos⟩

/-- C6: `computeAll` preserves the input station order with exactly those
stations removed whose x/D does not parse or which have fewer than 2 valid
rows; every returned station's rows are sorted ascending by radius; the
returned globals are the unchanged input settings, and with zero surviving
stations the results sequence is empty. -/
theorem C6_batch_contract (stations : List StationData) (g : GlobalSettings) :
    (computeAll stations g).globals = g ∧
    (computeAll stations g).results = stations.filterMap (processStation g) ∧
    (∀ st, processStation g st = none ↔
      st.xd = none ∨ (parseRows st.rows).length < 2) ∧
    (∀ cs ∈ (computeAll stations g).results, List.Sorted rleR cs.rows) ∧
    ((∀ st ∈ stations, processStation g st = none) →
      (computeAll stations g).results = []) := by
  refine ⟨rfl, rfl, ?_, ?_, ?_⟩
  · intro st
    constructor
    · intro h
      unfold processStation at h
      split at h
      next hxd => exact Or.inl hxd
      next xd hxd =>
        split at h
        next hl => exact Or.inr hl
        next hl => exact absurd h (by simp)
    · intro hor
      unfold processStation
      rcases hor with hxd | hl
      · rw [hxd]
      · cases hxd : st.xd with
        | none => rfl
        | some xd =>
          show (if (parseRows st.rows).length < 2 then none
            else some (buildStation g st xd)) = none
          rw [if_pos hl]
  · intro cs hcs
    obtain ⟨st, hst, hps⟩ := List.mem_filterMap.mp hcs
    obtain ⟨xd, hxd, hlen, hcseq⟩ := processStation_eq_some hps
    rw [hcseq, buildStation_rows]
    exact sorted_sortRows _
  · intro hall
    show stations.filterMap (processStation g) = []
    exact List.filterMap_eq_nil_iff.mpr hall

/-- Witness for C6: a one-station batch keeps its globals, its surviving
station's rows are sorted, and the empty station is dropped for having
fewer than 2 valid rows. -/
theorem C6_batch_contract_witness :
    (computeAll [exSt] exG).globals = exG ∧
    List.Sorted rleR exCS.rows ∧
    (processStation exG stEmpty = none ↔
      stEmpty.xd = none ∨ (parseRows stEmpty.rows).length < 2) :=
  ⟨(C6_batch_contract [exSt] exG).1,
    (C6_batch_contract [exSt] exG).2.2.2.1 exCS (by
      show exCS ∈ [exSt].filterMap (processStation exG)
      simp [List.filterMap_cons, processStation_ex]),
    (C6_batch_contract [exSt] exG).2.2.1 stEmpty⟩

/-- C3: the half-velocity radius solver: with target `ln(Uc/2)` it scans
consecutive pairs of the u > 0 rows transformed to (r², ln u), returning
the square root of the r²-space linear interpolation at the first
bracketing pair (first side ≥ target, second ≤ target); when no
transformed pair brackets, it scans consecutive (r, u) pairs with the same
rule and returns the r-space linear interpolation; when neither scan
brackets, the result is NaN, and a processed station then carries the
no-crossing warning. -/
theorem C3_rhalf_solver :
    (∀ (g : GlobalSettings) (st : StationData) (cs : ComputedStation),
      processStation g st = some cs →
      cs.rHalf = interpolateRhalf (cs.rows.map fun p => p.r)
          (cs.rows.map fun p => p.u) cs.Uc ∧
      (cs.rHalf = none → Warning.noCrossing ∈ cs.warnings)) ∧
    (∀ (r u : List ℝ) (Uc : ℝ), 0 < Uc →
      (∀ i, i + 1 < (transformedOf r u).length →
        bracketAt (Real.log (Uc / 2)) (transformedOf r u) i →
        (∀ j, j < i → ¬bracketAt (Real.log (Uc / 2)) (transformedOf r u) j) →
        interpolateRhalf r u Uc =
          some (Real.sqrt (interpAt (Real.log (Uc / 2)) (transformedOf r u) i))) ∧
      ((∀ j, j + 1 < (transformedOf r u).length →
          ¬bracketAt (Real.log (Uc / 2)) (transformedOf r u) j) →
        (∀ i, i + 1 < (r.zip u).length →
          bracketAt (Uc / 2) (r.zip u) i →
          (∀ j, j < i → ¬bracketAt (Uc / 2) (r.zip u) j) →
          interpolateRhalf r u Uc = some (interpAt (Uc / 2) (r.zip u) i)) ∧
        ((∀ i, i + 1 < (r.zip u).length → ¬bracketAt (Uc / 2) (r.zip u) i) →
          interpolateRhalf r u Uc = none))) := by
  constructor
  · intro g st cs h
    obtain ⟨xd, hxd, hlen, hcs⟩ := processStation_eq_some h
    subst hcs
    refine ⟨?_, ?_⟩
    · rw [buildStation_rHalf, buildStation_rows, buildStation_Uc]
    · intro hnone
      rw [buildStation_warnings, hnone]
      simp [noCrossWarn]
  · intro r u Uc hUc
    have hne : ¬Uc ≤ 0 := not_le.mpr hUc
    constructor
    · intro i hi hb hfirst
      simp only [interpolateRhalf]
      rw [if_neg hne, findPair_first _ (0, 0) (transformedOf r u) i hi hb hfirst]
      rfl
    · intro hnolog
      have h1 : findPair
          (fun p1 p2 : ℝ × ℝ => Real.log (Uc / 2) ≤ p1.2 ∧ p2.2 ≤ Real.log (Uc / 2))
          (transformedOf r u) = none :=
        findPair_none _ (0, 0) _ hnolog
      constructor
      · intro i hi hb hfirst
        simp only [interpolateRhalf]
        rw [if_neg hne, h1, findPair_first _ (0, 0) (r.zip u) i hi hb hfirst]
        rfl
      · intro hnolin
        simp only [interpolateRhalf]
        rw [if_neg hne, h1, findPair_none _ (0, 0) (r.zip u) hnolin]

/-- Witness for C3 at the worked example station. -/
theorem C3_rhalf_solver_witness :
    exCS.rHalf = interpolateRhalf (exCS.rows.map fun p => p.r)
        (exCS.rows.map fun p => p.u) exCS.Uc ∧
    (exCS.rHalf = none → Warning.noCrossing ∈ exCS.warnings) :=
  C3_rhalf_solver.1 exG exSt exCS processStation_ex

end TJet
